import Mathlib

/-!
Shallow embedding of the fire-propagation engine of `src/fuego.py`
(states, wind discretizer, fuel locator, propagation step) together
with theorems settling the specification claims about it.

Grids are 2D numpy arrays in the source, indexed `grilla[y, x]` with
`shape = (rows, cols)`; here they are lists of rows of naturals, with
`getD`-style access defaulting to 0 out of bounds (the source never
reads or writes out of bounds, so the default is irrelevant there).
The random source `random.random()` is modelled as a stream `rng : ℕ → ℚ`
together with a counter threaded through the step: each executed
probability trial consumes exactly one draw, as in the source.
-/

namespace SimFuego

/-- Cell state VACIO = 0 of `fuego.py` (primed to keep the identifier plain). -/
def VACIO' : ℕ := 0

/-- Cell state VEGETACION = 1 of `fuego.py`. -/
def VEGETACION : ℕ := 1

/-- Cell state FUEGO = 2 of `fuego.py`. -/
def FUEGO : ℕ := 2

/-- Cell state QUEMADO = 3 of `fuego.py`. -/
def QUEMADO : ℕ := 3

/-- A grid: list of rows of cell states (numpy array indexed `[y, x]`). -/
abbrev Grid := List (List ℕ)

/-- The slope raster `pendiente`: same indexing, rational entries. -/
abbrev Slope := List (List ℚ)

/-- Number of rows, `grilla.shape[0]`. -/
def shape0 (g : Grid) : ℕ := g.length

/-- Number of columns, `grilla.shape[1]` (row length of a rectangular array). -/
def shape1 (g : Grid) : ℕ := (g.headD []).length

/-- Read `grilla[y, x]` (0 when out of bounds; never exercised by the source). -/
def gget (g : Grid) (y x : ℕ) : ℕ := (g.getD y []).getD x 0

/-- Write `grilla[y, x] = v` (no-op out of bounds; never exercised by the source). -/
def gset (g : Grid) (y x : ℕ) (v : ℕ) : Grid := g.set y ((g.getD y []).set x v)

/-- Read `pendiente[y, x]`. -/
def pget (p : Slope) (y x : ℕ) : ℚ := (p.getD y []).getD x 0

/-- Read a grid at integer coordinates, 0 when either is negative. -/
def ggetZ (g : Grid) (y x : ℤ) : ℕ := if 0 ≤ y ∧ 0 ≤ x then gget g y.toNat x.toNat else 0

/-- A grid is rectangular (every row has the numpy row length `shape[1]`). -/
def Rectangular (g : Grid) : Prop := ∀ row ∈ g, row.length = shape1 g

instance (g : Grid) : Decidable (Rectangular g) := by
  unfold Rectangular
  exact inferInstance

/-- Same outer length and same row lengths as the base grid. -/
def SameShape (base g : Grid) : Prop :=
  g.length = base.length ∧ ∀ i, (g.getD i []).length = (base.getD i []).length

/-- Row-major list of all coordinates `(y, x)` of the two nested loops
`for y in range(shape[0]): for x in range(shape[1])`. -/
def coords (h w : ℕ) : List (ℕ × ℕ) := List.product (List.range h) (List.range w)

/-- The offsets `(dy, dx)` of the nested loops `for dy in [-1,0,1]: for dx in [-1,0,1]`. -/
def offsets : List (ℤ × ℤ) := List.product [-1, 0, 1] [-1, 0, 1]

/-- Ignition probability of lines 48-54 of `fuego.py`: wind-aligned
(`dx == viento_dx and dy == viento_dy`) uses `0.6 + 0.2*pend + 0.02*velocidad`,
otherwise `0.3 + 0.1*pend + 0.01*velocidad`. -/
def prob_ignicion (viento : ℤ × ℤ) (velocidad : ℚ) (pend : ℚ) (dy dx : ℤ) : ℚ :=
  if dx = viento.1 ∧ dy = viento.2 then
    (0.6 : ℚ) + 0.2 * pend + 0.02 * velocidad
  else
    (0.3 : ℚ) + 0.1 * pend + 0.01 * velocidad

/-- Guard of the ignition trial for source `(y, x)` and offset `(dy, dx)`:
the neighbor `(x+dx, y+dy)` is in bounds and holds vegetation in the snapshot. -/
def trial_guard (grilla : Grid) (y x : ℕ) (dy dx : ℤ) : Prop :=
  0 ≤ (x : ℤ) + dx ∧ (x : ℤ) + dx < (shape1 grilla : ℤ) ∧
  0 ≤ (y : ℤ) + dy ∧ (y : ℤ) + dy < (shape0 grilla : ℤ) ∧
  gget grilla ((y : ℤ) + dy).toNat ((x : ℤ) + dx).toNat = VEGETACION

instance (grilla : Grid) (y x : ℕ) (dy dx : ℤ) : Decidable (trial_guard grilla y x dy dx) := by
  unfold trial_guard
  exact inferInstance

/-- Body of the innermost loop of `actualizar` for one offset `o = (dy, dx)`:
if the neighbor is in bounds and vegetated, draw `rng k` and compare it with
the clamped probability, igniting the neighbor on success; the draw counter
advances exactly when a draw happens. State `s = (nueva, k)`. -/
def igniteStep (grilla : Grid) (viento : ℤ × ℤ) (velocidad : ℚ) (pendiente : Slope)
    (rng : ℕ → ℚ) (y x : ℕ) (s : Grid × ℕ) (o : ℤ × ℤ) : Grid × ℕ :=
  if trial_guard grilla y x o.1 o.2 then
    if rng s.2 < min (prob_ignicion viento velocidad
        (pget pendiente ((y : ℤ) + o.1).toNat ((x : ℤ) + o.2).toNat) o.1 o.2) 1 then
      (gset s.1 ((y : ℤ) + o.1).toNat ((x : ℤ) + o.2).toNat FUEGO, s.2 + 1)
    else
      (s.1, s.2 + 1)
  else s

/-- Body of the per-cell loop of `actualizar`: a burning cell is marked burned
in `nueva` and then all nine offsets are scanned for ignition trials. -/
def cellStep (grilla : Grid) (viento : ℤ × ℤ) (velocidad : ℚ) (pendiente : Slope)
    (rng : ℕ → ℚ) (s : Grid × ℕ) (yx : ℕ × ℕ) : Grid × ℕ :=
  if gget grilla yx.1 yx.2 = FUEGO then
    offsets.foldl (igniteStep grilla viento velocidad pendiente rng yx.1 yx.2)
      (gset s.1 yx.1 yx.2 QUEMADO, s.2)
  else s

/-- The propagation step `actualizar` of `fuego.py`: start from a copy of the
input grid and fold the per-cell body over all coordinates in row-major order. -/
def actualizar (grilla : Grid) (viento : ℤ × ℤ) (velocidad : ℚ) (pendiente : Slope)
    (rng : ℕ → ℚ) : Grid :=
  ((coords (shape0 grilla) (shape1 grilla)).foldl
    (cellStep grilla viento velocidad pendiente rng) (grilla, 0)).1

/-- Always-non-aligned variant of the trial body, following the spec wording
that with a degenerate wind every executed trial uses the non-aligned formula
`0.3 + 0.1 * slope + 0.01 * windSpeed`; used as the comparison point of the
claim about the wind vector `(0, 0)`. -/
def igniteStepNA (grilla : Grid) (velocidad : ℚ) (pendiente : Slope)
    (rng : ℕ → ℚ) (y x : ℕ) (s : Grid × ℕ) (o : ℤ × ℤ) : Grid × ℕ :=
  if trial_guard grilla y x o.1 o.2 then
    if rng s.2 < min ((0.3 : ℚ) + 0.1 *
        (pget pendiente ((y : ℤ) + o.1).toNat ((x : ℤ) + o.2).toNat) + 0.01 * velocidad) 1 then
      (gset s.1 ((y : ℤ) + o.1).toNat ((x : ℤ) + o.2).toNat FUEGO, s.2 + 1)
    else
      (s.1, s.2 + 1)
  else s

/-- Per-cell body of the always-non-aligned variant of the step. -/
def cellStepNA (grilla : Grid) (velocidad : ℚ) (pendiente : Slope)
    (rng : ℕ → ℚ) (s : Grid × ℕ) (yx : ℕ × ℕ) : Grid × ℕ :=
  if gget grilla yx.1 yx.2 = FUEGO then
    offsets.foldl (igniteStepNA grilla velocidad pendiente rng yx.1 yx.2)
      (gset s.1 yx.1 yx.2 QUEMADO, s.2)
  else s

/-- Propagation step in which every executed trial uses the non-aligned
probability formula, regardless of any wind vector. -/
def actualizar_na (grilla : Grid) (velocidad : ℚ) (pendiente : Slope)
    (rng : ℕ → ℚ) : Grid :=
  ((coords (shape0 grilla) (shape1 grilla)).foldl
    (cellStepNA grilla velocidad pendiente rng) (grilla, 0)).1

/-- Iterated propagation: apply `actualizar` `n` times, the `i`-th application
drawing from its own stream `rngs i` (the global generator keeps advancing
between hours in the source; any draws it would produce are covered by
quantifying over the streams). -/
def actualizar_many (viento : ℤ × ℤ) (velocidad : ℚ) (pendiente : Slope)
    (rngs : ℕ → ℕ → ℚ) : ℕ → Grid → Grid
  | 0, g => g
  | n + 1, g => actualizar_many viento velocidad pendiente rngs n
      (actualizar g viento velocidad pendiente (rngs n))

/-- The grid contains no burning and no vegetated cells: every entry is
either VACIO or QUEMADO. -/
def soloTerminal (g : Grid) : Prop := ∀ row ∈ g, ∀ c ∈ row, c = VACIO' ∨ c = QUEMADO

instance (g : Grid) : Decidable (soloTerminal g) := by
  unfold soloTerminal
  exact inferInstance

/-- The eight Moore-neighborhood offsets `(dy, dx)` of a cell (the center excluded). -/
def moore8 : List (ℤ × ℤ) := [(-1, -1), (-1, 0), (-1, 1), (0, -1), (0, 1), (1, -1), (1, 0), (1, 1)]

/-- Some cell among the eight Moore neighbors of `(y=i, x=j)` is burning. -/
def hasBurningNeighbor (g : Grid) (i j : ℕ) : Prop :=
  ∃ o ∈ moore8, ggetZ g ((i : ℤ) + o.1) ((j : ℤ) + o.2) = FUEGO

instance (g : Grid) (i j : ℕ) : Decidable (hasBurningNeighbor g i j) := by
  unfold hasBurningNeighbor
  exact inferInstance

/-! ### Fuel locator `buscar_vecino` -/

/-- The ascending offsets `-r, ..., r` of `range(-r, r + 1)`. -/
def offsRange (r : ℕ) : List ℤ := (List.range (2 * r + 1)).map (fun (i : ℕ) => (i : ℤ) - (r : ℤ))

/-- Offsets `(dy, dx)` of the square scan at radius `r`: outer loop over the row
offset `dy`, inner loop over the column offset `dx`, both ascending. -/
def squareScan (r : ℕ) : List (ℤ × ℤ) := List.product (offsRange r) (offsRange r)

/-- Condition of line 29-30 of `fuego.py` on the offset `o = (dy, dx)` from
`(cx, cy)`: the scanned cell `(nx, ny) = (cx+dx, cy+dy)` is in bounds and
holds vegetation. -/
def vecino_check (grilla : Grid) (cx cy : ℤ) (o : ℤ × ℤ) : Bool :=
  decide (0 ≤ cx + o.2 ∧ cx + o.2 < (shape1 grilla : ℤ) ∧
    0 ≤ cy + o.1 ∧ cy + o.1 < (shape0 grilla : ℤ) ∧
    ggetZ grilla (cy + o.1) (cx + o.2) = VEGETACION)

/-- Flattened scan sequence of the three nested loops of `buscar_vecino`,
starting at radius `r` with `n` radii left: the full square at radius `r`,
then the one at `r + 1`, and so on. -/
def scanFromAux : ℕ → ℕ → List (ℤ × ℤ)
  | _, 0 => []
  | r, n + 1 => squareScan r ++ scanFromAux (r + 1) n

/-- The fuel locator `buscar_vecino` of `fuego.py`: scan radii `1, ..., rmax`
in order, each radius row-major over its full square, and return the first
in-bounds vegetated cell `(nx, ny)`, or `none` for the `(None, None)` sentinel. -/
def buscar_vecino (grilla : Grid) (cx cy : ℤ) (rmax : ℕ) : Option (ℤ × ℤ) :=
  ((scanFromAux 1 rmax).find? (vecino_check grilla cx cy)).map (fun o => (cx + o.2, cy + o.1))

/-- Reference fuel locator written from the spec wording: iterate the Chebyshev
radius `r` from 1 to the maximum; at each radius scan the full square (row-major)
and return the first in-bounds vegetated cell, else move to the next radius;
report the sentinel when the radii run out. -/
def buscar_desde (grilla : Grid) (cx cy : ℤ) : ℕ → ℕ → Option (ℤ × ℤ)
  | _, 0 => none
  | r, n + 1 =>
    match (squareScan r).find? (vecino_check grilla cx cy) with
    | some o => some (cx + o.2, cy + o.1)
    | none => buscar_desde grilla cx cy (r + 1) n

/-- Reference fuel locator of the spec, starting at radius 1 with `rmax` radii. -/
def buscar_vecino_spec (grilla : Grid) (cx cy : ℤ) (rmax : ℕ) : Option (ℤ × ℤ) :=
  buscar_desde grilla cx cy 1 rmax

/-- Some in-bounds vegetated cell lies within Chebyshev distance `rmax`
of the target `(cx, cy)`. -/
def fuelWithin (g : Grid) (cx cy : ℤ) (rmax : ℕ) : Prop :=
  ∃ y x : ℕ, y < shape0 g ∧ x < shape1 g ∧ gget g y x = VEGETACION ∧
    ((y : ℤ) - cy).natAbs ≤ rmax ∧ ((x : ℤ) - cx).natAbs ≤ rmax

/-! ### Wind discretizer `direccion_vector` -/

open Real in
/-- Python `math.radians`: degrees to radians. -/
noncomputable def radians (grados : ℝ) : ℝ := grados * (π / 180)

/-- Python `round` on a real value: round half to even (banker's rounding),
nearest integer otherwise. -/
noncomputable def pyround (x : ℝ) : ℤ :=
  if Int.fract x = 1 / 2 then (if Even ⌊x⌋ then ⌊x⌋ else ⌊x⌋ + 1) else round x

/-- The wind discretizer `direccion_vector` of `fuego.py`: convert the degree
reading to radians and round `(cos, sin)` componentwise. -/
noncomputable def direccion_vector (grados : ℝ) : ℤ × ℤ :=
  (pyround (Real.cos (radians grados)), pyround (Real.sin (radians grados)))

/-! ### List-level helper lemmas -/

theorem lgetD_oob {α : Type} (l : List α) (i : ℕ) (d : α) (h : l.length ≤ i) :
    l.getD i d = d := by
  simp only [List.getD_eq_getElem?_getD]
  rw [List.getElem?_eq_none h]
  rfl

theorem lgetD_inbounds {α : Type} {l : List α} {i : ℕ} {d c : α} (h : l.getD i d = c)
    (hne : c ≠ d) : i < l.length := by
  by_contra hge
  exact hne ((lgetD_oob l i d (Nat.le_of_not_lt hge)) ▸ h.symm)

theorem lgetD_mem {α : Type} (l : List α) (i : ℕ) (d : α) (h : i < l.length) :
    l.getD i d ∈ l := by
  simp only [List.getD_eq_getElem?_getD, List.getElem?_eq_getElem h, Option.getD_some]
  exact l.getElem_mem h

theorem lgetD_set_self {α : Type} (l : List α) (i : ℕ) (a d : α) (h : i < l.length) :
    (l.set i a).getD i d = a := by
  simp [List.getD_eq_getElem?_getD, List.getElem?_set_self h]

theorem lgetD_set_ne {α : Type} (l : List α) (i j : ℕ) (a d : α) (h : i ≠ j) :
    (l.set i a).getD j d = l.getD j d := by
  simp [List.getD_eq_getElem?_getD, List.getElem?_set_ne h]

/-- Membership in the row-major coordinate list. -/
theorem mem_coords {h w y x : ℕ} : (y, x) ∈ coords h w ↔ y < h ∧ x < w := by
  simp [coords, List.product, List.mem_flatMap, List.mem_map, List.mem_range]

/-- The nine offsets, listed. -/
theorem offsets_eq :
    offsets = [(-1, -1), (-1, 0), (-1, 1), (0, -1), (0, 0), (0, 1), (1, -1), (1, 0), (1, 1)] := by
  rfl

/-! ### Fold invariants -/

theorem foldl_inv {α β : Type} (f : β → α → β) (P : β → Prop) (l : List α) (b : β)
    (h0 : P b) (hstep : ∀ b' a, a ∈ l → P b' → P (f b' a)) : P (l.foldl f b) := by
  induction l generalizing b with
  | nil => exact h0
  | cons a t ih =>
    exact ih (f b a) (hstep b a (List.mem_cons_self a t) h0)
      (fun b' a' ha' hP => hstep b' a' (List.mem_cons_of_mem a ha') hP)

theorem foldl_congr_mem {α β : Type} (f g : β → α → β) (l : List α) (b : β)
    (h : ∀ b' a, a ∈ l → f b' a = g b' a) : l.foldl f b = l.foldl g b := by
  induction l generalizing b with
  | nil => rfl
  | cons a t ih =>
    rw [List.foldl_cons, List.foldl_cons, h b a (List.mem_cons_self a t)]
    exact ih (g b a) (fun b' a' ha' => h b' a' (List.mem_cons_of_mem a ha'))

/-! ### Grid read/write lemmas -/

theorem gget_gset_ne (g : Grid) (y x y' x' v : ℕ) (h : y ≠ y' ∨ x ≠ x') :
    gget (gset g y x v) y' x' = gget g y' x' := by
  unfold gget gset
  rcases eq_or_ne y y' with hy | hy
  · subst hy
    rcases h with h | h
    · exact absurd rfl h
    · rcases Nat.lt_or_ge y g.length with hlt | hge
      · rw [lgetD_set_self g y _ [] hlt, lgetD_set_ne _ x x' _ _ h]
      · rw [List.set_eq_of_length_le hge]
  · rw [lgetD_set_ne g y y' _ [] hy]

theorem gget_gset_self (g : Grid) (y x v : ℕ) (hy : y < g.length)
    (hx : x < (g.getD y []).length) : gget (gset g y x v) y x = v := by
  unfold gget gset
  rw [lgetD_set_self g y _ [] hy, lgetD_set_self _ x v 0 hx]

/-- A nonzero cell read is in bounds of its row and of the grid. -/
theorem gget_inbounds {g : Grid} {y x c : ℕ} (h : gget g y x = c) (hc : c ≠ 0) :
    y < g.length ∧ x < (g.getD y []).length := by
  unfold gget at h
  refine ⟨?_, lgetD_inbounds h hc⟩
  by_contra hge
  rw [lgetD_oob g y [] (Nat.le_of_not_lt hge)] at h
  exact hc (by simpa using h.symm)

/-! ### Shape preservation -/

theorem sameShape_refl (g : Grid) : SameShape g g := ⟨rfl, fun _ => rfl⟩

theorem sameShape_gset {base g : Grid} (h : SameShape base g) (y x v : ℕ) :
    SameShape base (gset g y x v) := by
  obtain ⟨hlen, hrow⟩ := h
  constructor
  · unfold gset
    rw [List.length_set]
    exact hlen
  · intro i
    unfold gset
    rcases eq_or_ne y i with hy | hy
    · subst hy
      rcases Nat.lt_or_ge y g.length with hlt | hge
      · rw [lgetD_set_self g y _ [] hlt, List.length_set]
        exact hrow y
      · rw [List.set_eq_of_length_le hge]
        exact hrow y
    · rw [lgetD_set_ne g y i _ [] hy]
      exact hrow i

/-! ### Preservation lemmas for the propagation step -/

/-- An ignition trial never changes a cell that is not vegetated in the snapshot. -/
theorem igniteStep_gget_ne_veg (grilla : Grid) (viento : ℤ × ℤ) (velocidad : ℚ)
    (pendiente : Slope) (rng : ℕ → ℚ) (y x : ℕ) (s : Grid × ℕ) (o : ℤ × ℤ) (i j : ℕ)
    (hv : gget grilla i j ≠ VEGETACION) :
    gget (igniteStep grilla viento velocidad pendiente rng y x s o).1 i j = gget s.1 i j := by
  unfold igniteStep
  split
  · next hg =>
    obtain ⟨-, -, -, -, hveg⟩ := hg
    split
    · next =>
      have hne : ((y : ℤ) + o.1).toNat ≠ i ∨ ((x : ℤ) + o.2).toNat ≠ j := by
        rcases eq_or_ne ((y : ℤ) + o.1).toNat i with h1 | h1
        · rcases eq_or_ne ((x : ℤ) + o.2).toNat j with h2 | h2
          · rw [h1, h2] at hveg
            exact absurd hveg hv
          · exact Or.inr h2
        · exact Or.inl h1
      exact gget_gset_ne s.1 _ _ i j FUEGO hne
    · rfl
  · rfl

/-- The whole nine-offset scan never changes a cell that is not vegetated
in the snapshot. -/
theorem ignitefold_gget_ne_veg (grilla : Grid) (viento : ℤ × ℤ) (velocidad : ℚ)
    (pendiente : Slope) (rng : ℕ → ℚ) (y x : ℕ) (s : Grid × ℕ) (i j : ℕ)
    (hv : gget grilla i j ≠ VEGETACION) :
    gget ((offsets.foldl (igniteStep grilla viento velocidad pendiente rng y x) s)).1 i j
      = gget s.1 i j := by
  exact foldl_inv _ (fun s' => gget s'.1 i j = gget s.1 i j) offsets s rfl
    (fun s' o _ hP =>
      (igniteStep_gget_ne_veg grilla viento velocidad pendiente rng y x s' o i j hv).trans hP)

/-- An ignition trial preserves grid shape. -/
theorem igniteStep_sameShape (grilla : Grid) (viento : ℤ × ℤ) (velocidad : ℚ)
    (pendiente : Slope) (rng : ℕ → ℚ) (y x : ℕ) (base : Grid) (s : Grid × ℕ) (o : ℤ × ℤ)
    (h : SameShape base s.1) :
    SameShape base (igniteStep grilla viento velocidad pendiente rng y x s o).1 := by
  unfold igniteStep
  split
  · split
    · exact sameShape_gset h _ _ _
    · exact h
  · exact h

/-- The per-cell body preserves grid shape. -/
theorem cellStep_sameShape (grilla : Grid) (viento : ℤ × ℤ) (velocidad : ℚ)
    (pendiente : Slope) (rng : ℕ → ℚ) (base : Grid) (s : Grid × ℕ) (yx : ℕ × ℕ)
    (h : SameShape base s.1) :
    SameShape base (cellStep grilla viento velocidad pendiente rng s yx).1 := by
  unfold cellStep
  split
  · exact foldl_inv _ (fun s' => SameShape base s'.1) offsets
      (gset s.1 yx.1 yx.2 QUEMADO, s.2)
      (sameShape_gset h yx.1 yx.2 QUEMADO)
      (fun s' o _ hP => igniteStep_sameShape grilla viento velocidad pendiente rng _ _ base s' o hP)
  · exact h

/-- The output of the step has the shape of the input grid. -/
theorem actualizar_sameShape (grilla : Grid) (viento : ℤ × ℤ) (velocidad : ℚ)
    (pendiente : Slope) (rng : ℕ → ℚ) :
    SameShape grilla (actualizar grilla viento velocidad pendiente rng) := by
  unfold actualizar
  exact foldl_inv _ (fun s' => SameShape grilla s'.1) _ (grilla, 0) (sameShape_refl grilla)
    (fun s' yx _ hP => cellStep_sameShape grilla viento velocidad pendiente rng grilla s' yx hP)

/-- The per-cell body never changes a cell that is neither vegetated nor
burning in the snapshot. -/
theorem cellStep_gget_frozen (grilla : Grid) (viento : ℤ × ℤ) (velocidad : ℚ)
    (pendiente : Slope) (rng : ℕ → ℚ) (s : Grid × ℕ) (yx : ℕ × ℕ) (i j : ℕ)
    (hv : gget grilla i j ≠ VEGETACION) (hf : gget grilla i j ≠ FUEGO) :
    gget (cellStep grilla viento velocidad pendiente rng s yx).1 i j = gget s.1 i j := by
  unfold cellStep
  split
  · next hyx =>
    have hne : yx.1 ≠ i ∨ yx.2 ≠ j := by
      rcases eq_or_ne yx.1 i with h1 | h1
      · rcases eq_or_ne yx.2 j with h2 | h2
        · rw [h1, h2] at hyx
          exact absurd hyx hf
        · exact Or.inr h2
      · exact Or.inl h1
    rw [ignitefold_gget_ne_veg grilla viento velocidad pendiente rng yx.1 yx.2 _ i j hv]
    exact gget_gset_ne s.1 _ _ i j QUEMADO hne
  · rfl

/-- Once a burning cell has been marked burned, every later per-cell body
keeps it burned (and keeps the shape). -/
theorem cellStep_keeps_quemado (grilla : Grid) (viento : ℤ × ℤ) (velocidad : ℚ)
    (pendiente : Slope) (rng : ℕ → ℚ) (s : Grid × ℕ) (yx : ℕ × ℕ) (i j : ℕ)
    (hf : gget grilla i j = FUEGO)
    (h : gget s.1 i j = QUEMADO ∧ SameShape grilla s.1) :
    gget (cellStep grilla viento velocidad pendiente rng s yx).1 i j = QUEMADO ∧
      SameShape grilla (cellStep grilla viento velocidad pendiente rng s yx).1 := by
  obtain ⟨hq, hsh⟩ := h
  refine ⟨?_, cellStep_sameShape grilla viento velocidad pendiente rng grilla s yx hsh⟩
  unfold cellStep
  split
  · next hyx =>
    have hv : gget grilla i j ≠ VEGETACION := by
      rw [hf]
      decide
    rw [ignitefold_gget_ne_veg grilla viento velocidad pendiente rng yx.1 yx.2 _ i j hv]
    rcases eq_or_ne yx.1 i with h1 | h1
    · rcases eq_or_ne yx.2 j with h2 | h2
      · subst h1
        subst h2
        have hb := gget_inbounds hf (by decide)
        exact gget_gset_self s.1 yx.1 yx.2 QUEMADO (hsh.1 ▸ hb.1) ((hsh.2 yx.1) ▸ hb.2)
      · rw [gget_gset_ne s.1 _ _ i j QUEMADO (Or.inr h2)]
        exact hq
    · rw [gget_gset_ne s.1 _ _ i j QUEMADO (Or.inl h1)]
      exact hq
  · exact hq

/-- Processing a burning cell marks it burned in the working grid. -/
theorem cellStep_marks_quemado (grilla : Grid) (viento : ℤ × ℤ) (velocidad : ℚ)
    (pendiente : Slope) (rng : ℕ → ℚ) (s : Grid × ℕ) (y x : ℕ)
    (hf : gget grilla y x = FUEGO) (hsh : SameShape grilla s.1) :
    gget (cellStep grilla viento velocidad pendiente rng s (y, x)).1 y x = QUEMADO := by
  have hb := gget_inbounds hf (by decide)
  show gget ((if gget grilla (y, x).1 (y, x).2 = FUEGO then _ else _) : Grid × ℕ).1 y x = QUEMADO
  rw [if_pos hf]
  rw [ignitefold_gget_ne_veg grilla viento velocidad pendiente rng y x _ y x (by rw [hf]; decide)]
  exact gget_gset_self s.1 y x QUEMADO (hsh.1 ▸ hb.1) ((hsh.2 y) ▸ hb.2)

/-! ### Claim theorems -/

/-- C1: for every input grid (rectangular, as every numpy array is), wind
vector, wind speed, slope field and random source, every cell burning (FUEGO)
in the input of `actualizar` is burned (QUEMADO) in the output: ignition
writes only target cells vegetated in the snapshot, so no later trial can
overwrite such a cell back to burning. -/
theorem claim_C1_burning_to_burned (grilla : Grid) (viento : ℤ × ℤ) (velocidad : ℚ)
    (pendiente : Slope) (rng : ℕ → ℚ) (y x : ℕ)
    (hrect : Rectangular grilla) (hf : gget grilla y x = FUEGO) :
    gget (actualizar grilla viento velocidad pendiente rng) y x = QUEMADO := by
  have hb := gget_inbounds hf (by decide)
  have hx1 : x < shape1 grilla := (hrect _ (lgetD_mem grilla y [] hb.1)) ▸ hb.2
  have hmem : (y, x) ∈ coords (shape0 grilla) (shape1 grilla) := mem_coords.mpr ⟨hb.1, hx1⟩
  obtain ⟨l₁, l₂, hsplit⟩ := List.append_of_mem hmem
  unfold actualizar
  rw [hsplit, List.foldl_append, List.foldl_cons]
  have hsh1 : SameShape grilla
      ((l₁.foldl (cellStep grilla viento velocidad pendiente rng) (grilla, 0))).1 :=
    foldl_inv _ (fun s' => SameShape grilla s'.1) l₁ (grilla, 0) (sameShape_refl grilla)
      (fun s' yx _ hP => cellStep_sameShape grilla viento velocidad pendiente rng grilla s' yx hP)
  exact (foldl_inv _ (fun s' => gget s'.1 y x = QUEMADO ∧ SameShape grilla s'.1) l₂ _
    ⟨cellStep_marks_quemado grilla viento velocidad pendiente rng _ y x hf hsh1,
     cellStep_sameShape grilla viento velocidad pendiente rng grilla _ (y, x) hsh1⟩
    (fun s' yx _ hP =>
      cellStep_keeps_quemado grilla viento velocidad pendiente rng s' yx y x hf hP)).1

/-- Witness for C1 at a concrete input: a 2 by 2 grid whose burning corner
comes out burned. -/
theorem claim_C1_burning_to_burned_witness :
    Rectangular [[2, 1], [1, 0]] ∧ gget [[2, 1], [1, 0]] 0 0 = FUEGO ∧
    gget (actualizar [[2, 1], [1, 0]] (1, 0) 10 [[0, 0], [0, 0]] (fun _ => 0)) 0 0 = QUEMADO :=
  ⟨by decide, by decide,
   claim_C1_burning_to_burned [[2, 1], [1, 0]] (1, 0) 10 [[0, 0], [0, 0]] (fun _ => 0) 0 0
     (by decide) (by decide)⟩

/-- C3: for every input grid, wind vector, wind speed, slope field and random
source, a cell empty (VACIO) or burned (QUEMADO) in the input of `actualizar`
holds exactly the same state in the output: no rule of the step writes to it. -/
theorem claim_C3_terminal_frozen (grilla : Grid) (viento : ℤ × ℤ) (velocidad : ℚ)
    (pendiente : Slope) (rng : ℕ → ℚ) (i j : ℕ)
    (h : gget grilla i j = VACIO' ∨ gget grilla i j = QUEMADO) :
    gget (actualizar grilla viento velocidad pendiente rng) i j = gget grilla i j := by
  have hv : gget grilla i j ≠ VEGETACION := by
    rcases h with h | h <;> rw [h] <;> decide
  have hf : gget grilla i j ≠ FUEGO := by
    rcases h with h | h <;> rw [h] <;> decide
  unfold actualizar
  exact foldl_inv _ (fun s' => gget s'.1 i j = gget grilla i j) _ (grilla, 0) rfl
    (fun s' yx _ hP =>
      (cellStep_gget_frozen grilla viento velocidad pendiente rng s' yx i j hv hf).trans hP)

/-- Witness for C3 at a concrete input: an empty cell and a burned cell both
survive a step unchanged. -/
theorem claim_C3_terminal_frozen_witness :
    (gget [[0, 2], [3, 1]] 1 0 = VACIO' ∨ gget [[0, 2], [3, 1]] 1 0 = QUEMADO) ∧
    gget (actualizar [[0, 2], [3, 1]] (1, 0) 7 [[0, 0], [0, 0]] (fun _ => 0)) 1 0
      = gget [[0, 2], [3, 1]] 1 0 :=
  ⟨Or.inr (by decide),
   claim_C3_terminal_frozen [[0, 2], [3, 1]] (1, 0) 7 [[0, 0], [0, 0]] (fun _ => 0) 1 0
     (Or.inr (by decide))⟩

theorem ggetZ_natCast (g : Grid) (y x : ℕ) : ggetZ g (y : ℤ) (x : ℤ) = gget g y x := by
  simp [ggetZ]

/-- An ignition trial out of a burning source never changes a vegetated cell
that has no burning Moore neighbor. -/
theorem igniteStep_no_neighbor (grilla : Grid) (viento : ℤ × ℤ) (velocidad : ℚ)
    (pendiente : Slope) (rng : ℕ → ℚ) (y x : ℕ) (s : Grid × ℕ) (o : ℤ × ℤ)
    (ho : o ∈ offsets) (hsrc : gget grilla y x = FUEGO) (i j : ℕ)
    (hnb : ¬ hasBurningNeighbor grilla i j) :
    gget (igniteStep grilla viento velocidad pendiente rng y x s o).1 i j = gget s.1 i j := by
  unfold igniteStep
  split
  · next hg =>
    split
    · next =>
      refine gget_gset_ne s.1 _ _ i j FUEGO ?_
      by_contra hcon
      push_neg at hcon
      obtain ⟨h1, h2⟩ := hcon
      obtain ⟨hx0, hx1, hy0, hy1, hveg⟩ := hg
      have hyi : (y : ℤ) + o.1 = (i : ℤ) := by
        rw [← h1, Int.toNat_of_nonneg hy0]
      have hxj : (x : ℤ) + o.2 = (j : ℤ) := by
        rw [← h2, Int.toNat_of_nonneg hx0]
      have honz : ¬(o.1 = 0 ∧ o.2 = 0) := by
        rintro ⟨hz1, hz2⟩
        rw [hz1, add_zero] at hyi
        rw [hz2, add_zero] at hxj
        have hyy : y = i := by exact_mod_cast hyi
        have hxx : x = j := by exact_mod_cast hxj
        rw [hyy, hxx] at hsrc
        rw [h1, h2, hsrc] at hveg
        exact absurd hveg (by decide)
      apply hnb
      refine ⟨(-o.1, -o.2), ?_, ?_⟩
      · have hmoore : ∀ p ∈ offsets, ¬(p.1 = 0 ∧ p.2 = 0) → (-p.1, -p.2) ∈ moore8 := by decide
        exact hmoore o ho honz
      · have h1' : (i : ℤ) + -o.1 = (y : ℤ) := by omega
        have h2' : (j : ℤ) + -o.2 = (x : ℤ) := by omega
        rw [h1', h2', ggetZ_natCast]
        exact hsrc
    · rfl
  · rfl

/-- The per-cell body never changes a vegetated cell without burning Moore
neighbor. -/
theorem cellStep_keeps_lone_veg (grilla : Grid) (viento : ℤ × ℤ) (velocidad : ℚ)
    (pendiente : Slope) (rng : ℕ → ℚ) (s : Grid × ℕ) (yx : ℕ × ℕ) (i j : ℕ)
    (hveg : gget grilla i j = VEGETACION) (hnb : ¬ hasBurningNeighbor grilla i j)
    (hP : gget s.1 i j = VEGETACION) :
    gget (cellStep grilla viento velocidad pendiente rng s yx).1 i j = VEGETACION := by
  unfold cellStep
  split
  · next hsrc =>
    refine foldl_inv _ (fun s' => gget s'.1 i j = VEGETACION) offsets
      (gset s.1 yx.1 yx.2 QUEMADO, s.2) ?_ ?_
    · have hne : yx.1 ≠ i ∨ yx.2 ≠ j := by
        rcases eq_or_ne yx.1 i with ha | ha
        · rcases eq_or_ne yx.2 j with hb | hb
          · rw [ha, hb] at hsrc
            rw [hsrc] at hveg
            exact absurd hveg (by decide)
          · exact Or.inr hb
        · exact Or.inl ha
      show gget (gset s.1 yx.1 yx.2 QUEMADO) i j = VEGETACION
      rw [gget_gset_ne s.1 _ _ i j QUEMADO hne]
      exact hP
    · intro s' o ho hP'
      rw [igniteStep_no_neighbor grilla viento velocidad pendiente rng yx.1 yx.2 s' o ho
        hsrc i j hnb]
      exact hP'
  · exact hP

/-- C4: for every input grid, wind vector, wind speed, slope field and random
source, a cell vegetated (VEGETACION) in the input with no burning (FUEGO)
cell among its 8 Moore neighbors in the input stays vegetated in the output
of `actualizar`: ignition requires a burning Moore neighbor in the snapshot. -/
theorem claim_C4_needs_burning_neighbor (grilla : Grid) (viento : ℤ × ℤ) (velocidad : ℚ)
    (pendiente : Slope) (rng : ℕ → ℚ) (i j : ℕ)
    (hveg : gget grilla i j = VEGETACION) (hnb : ¬ hasBurningNeighbor grilla i j) :
    gget (actualizar grilla viento velocidad pendiente rng) i j = VEGETACION := by
  unfold actualizar
  exact foldl_inv _ (fun s' => gget s'.1 i j = VEGETACION) _ (grilla, 0) hveg
    (fun s' yx _ hP =>
      cellStep_keeps_lone_veg grilla viento velocidad pendiente rng s' yx i j hveg hnb hP)

/-- Witness for C4 at a concrete input: fuel in one corner, fire in the
opposite corner of a 3 by 3 grid, an always-igniting draw stream; the fuel
survives. -/
theorem claim_C4_needs_burning_neighbor_witness :
    gget [[1, 0, 0], [0, 0, 0], [0, 0, 2]] 0 0 = VEGETACION ∧
    ¬ hasBurningNeighbor [[1, 0, 0], [0, 0, 0], [0, 0, 2]] 0 0 ∧
    gget (actualizar [[1, 0, 0], [0, 0, 0], [0, 0, 2]] (1, 0) 0
      [[0, 0, 0], [0, 0, 0], [0, 0, 0]] (fun _ => 0)) 0 0 = VEGETACION :=
  ⟨by decide, by decide,
   claim_C4_needs_burning_neighbor [[1, 0, 0], [0, 0, 0], [0, 0, 2]] (1, 0) 0
     [[0, 0, 0], [0, 0, 0], [0, 0, 0]] (fun _ => 0) 0 0 (by decide) (by decide)⟩

/-- C7: for a burning source cell, the trial body at the offset `(0, 0)` is
unreachable: it performs no draw, advances no counter and writes nothing,
because the target coincides with the source, which is not vegetated. -/
theorem claim_C7_no_self_trial (grilla : Grid) (viento : ℤ × ℤ) (velocidad : ℚ)
    (pendiente : Slope) (rng : ℕ → ℚ) (y x : ℕ)
    (hf : gget grilla y x = FUEGO) (s : Grid × ℕ) :
    igniteStep grilla viento velocidad pendiente rng y x s (0, 0) = s := by
  unfold igniteStep
  split
  · next hg =>
    obtain ⟨-, -, -, -, hveg⟩ := hg
    rw [show (((y : ℤ) + ((0 : ℤ), (0 : ℤ)).1).toNat) = y by omega,
      show (((x : ℤ) + ((0 : ℤ), (0 : ℤ)).2).toNat) = x by omega] at hveg
    rw [hf] at hveg
    exact absurd hveg (by decide)
  · rfl

/-- Witness for C7 at a concrete input: the trial body of a burning 1 by 1
grid at offset `(0, 0)` returns its state untouched. -/
theorem claim_C7_no_self_trial_witness :
    gget [[2]] 0 0 = FUEGO ∧
    igniteStep [[2]] (0, 0) 3 [[0]] (fun _ => 0) 0 0 ([[2]], 5) (0, 0) = ([[2]], 5) :=
  ⟨by decide,
   claim_C7_no_self_trial [[2]] (0, 0) 3 [[0]] (fun _ => 0) 0 0 (by decide) ([[2]], 5)⟩

/-- A grid with only empty and burned cells has no burning cell anywhere. -/
theorem soloTerminal_no_fuego {g : Grid} (h : soloTerminal g) : ∀ y x, gget g y x ≠ FUEGO := by
  intro y x
  unfold gget
  rcases Nat.lt_or_ge y g.length with hy | hy
  · rcases Nat.lt_or_ge x (g.getD y []).length with hx | hx
    · have hrow := lgetD_mem g y [] hy
      have hc := lgetD_mem (g.getD y []) x 0 hx
      rcases h _ hrow _ hc with hc' | hc' <;> rw [hc'] <;> decide
    · rw [lgetD_oob _ x 0 hx]
      decide
  · rw [lgetD_oob g y [] hy, List.getD_nil]
    decide

/-- One step on a terminal-only grid is the identity. -/
theorem actualizar_terminal_fixed (g : Grid) (viento : ℤ × ℤ) (velocidad : ℚ)
    (pendiente : Slope) (rng : ℕ → ℚ) (h : soloTerminal g) :
    actualizar g viento velocidad pendiente rng = g := by
  have hnf := soloTerminal_no_fuego h
  unfold actualizar
  have hfix : (coords (shape0 g) (shape1 g)).foldl
      (cellStep g viento velocidad pendiente rng) (g, 0) = (g, 0) :=
    foldl_inv _ (fun s' => s' = (g, 0)) _ _ rfl
      (fun s' yx _ hP => by
        rw [hP]
        unfold cellStep
        rw [if_neg (hnf yx.1 yx.2)])
  rw [hfix]

/-- C8: every grid containing only empty (VACIO) and burned (QUEMADO) cells is
a fixed point of `actualizar`, for every wind vector, wind speed, slope field
and random source; hence applying the step any number of times (with fresh
draw streams each hour) returns the input grid unchanged. -/
theorem claim_C8_terminal_fixed_point (g : Grid) (viento : ℤ × ℤ) (velocidad : ℚ)
    (pendiente : Slope) (rng : ℕ → ℚ) (rngs : ℕ → ℕ → ℚ) (h : soloTerminal g) :
    actualizar g viento velocidad pendiente rng = g ∧
    ∀ n, actualizar_many viento velocidad pendiente rngs n g = g := by
  refine ⟨actualizar_terminal_fixed g viento velocidad pendiente rng h, ?_⟩
  intro n
  induction n with
  | zero => rfl
  | succ m ih =>
    show actualizar_many viento velocidad pendiente rngs m
      (actualizar g viento velocidad pendiente (rngs m)) = g
    rw [actualizar_terminal_fixed g viento velocidad pendiente (rngs m) h]
    exact ih

/-- Witness for C8 at a concrete input: a grid of empties and burned cells is
returned unchanged, once and after two iterations. -/
theorem claim_C8_terminal_fixed_point_witness :
    soloTerminal [[0, 3], [3, 0]] ∧
    actualizar [[0, 3], [3, 0]] (0, 1) 20 [[1, 1], [1, 1]] (fun _ => 0) = [[0, 3], [3, 0]] ∧
    actualizar_many (0, 1) 20 [[1, 1], [1, 1]] (fun _ _ => 0) 2 [[0, 3], [3, 0]]
      = [[0, 3], [3, 0]] := by
  refine ⟨by decide, ?_, ?_⟩
  · exact (claim_C8_terminal_fixed_point [[0, 3], [3, 0]] (0, 1) 20 [[1, 1], [1, 1]]
      (fun _ => 0) (fun _ _ => 0) (by decide)).1
  · exact (claim_C8_terminal_fixed_point [[0, 3], [3, 0]] (0, 1) 20 [[1, 1], [1, 1]]
      (fun _ => 0) (fun _ _ => 0) (by decide)).2 2

/-- With a degenerate wind vector, an executed trial out of a burning source
behaves exactly like the always-non-aligned trial body. -/
theorem igniteStep_zero_wind (grilla : Grid) (velocidad : ℚ) (pendiente : Slope)
    (rng : ℕ → ℚ) (y x : ℕ) (hsrc : gget grilla y x = FUEGO) (s : Grid × ℕ) (o : ℤ × ℤ) :
    igniteStep grilla (0, 0) velocidad pendiente rng y x s o
      = igniteStepNA grilla velocidad pendiente rng y x s o := by
  unfold igniteStep igniteStepNA
  by_cases hg : trial_guard grilla y x o.1 o.2
  · rw [if_pos hg, if_pos hg]
    have hnz : ¬(o.2 = ((0 : ℤ), (0 : ℤ)).1 ∧ o.1 = ((0 : ℤ), (0 : ℤ)).2) := by
      rintro ⟨h2, h1⟩
      obtain ⟨-, -, -, -, hveg⟩ := hg
      rw [show o.1 = (0 : ℤ) from h1, show o.2 = (0 : ℤ) from h2] at hveg
      rw [show ((y : ℤ) + 0).toNat = y by omega, show ((x : ℤ) + 0).toNat = x by omega] at hveg
      rw [hsrc] at hveg
      exact absurd hveg (by decide)
    have hprob : prob_ignicion (0, 0) velocidad
        (pget pendiente ((y : ℤ) + o.1).toNat ((x : ℤ) + o.2).toNat) o.1 o.2
        = (0.3 : ℚ) + 0.1 * (pget pendiente ((y : ℤ) + o.1).toNat ((x : ℤ) + o.2).toNat)
          + 0.01 * velocidad := by
      unfold prob_ignicion
      rw [if_neg hnz]
    rw [hprob]
  · rw [if_neg hg, if_neg hg]

/-- C9: with the degenerate wind vector `(0, 0)` the whole step coincides with
the variant that applies the non-aligned formula
`0.3 + 0.1 * slope + 0.01 * windSpeed` to every executed trial: no trial
against a vegetated target is ever classified as wind-aligned, because the
only offset equal to `(0, 0)` points at the burning source itself. -/
theorem claim_C9_zero_wind_never_aligned (grilla : Grid) (velocidad : ℚ)
    (pendiente : Slope) (rng : ℕ → ℚ) :
    actualizar grilla (0, 0) velocidad pendiente rng
      = actualizar_na grilla velocidad pendiente rng := by
  unfold actualizar actualizar_na
  have hfold : (coords (shape0 grilla) (shape1 grilla)).foldl
      (cellStep grilla (0, 0) velocidad pendiente rng) (grilla, 0)
      = (coords (shape0 grilla) (shape1 grilla)).foldl
        (cellStepNA grilla velocidad pendiente rng) (grilla, 0) := by
    apply foldl_congr_mem
    intro s' yx _
    unfold cellStep cellStepNA
    by_cases hsrc : gget grilla yx.1 yx.2 = FUEGO
    · rw [if_pos hsrc, if_pos hsrc]
      apply foldl_congr_mem
      intro s'' o _
      exact igniteStep_zero_wind grilla velocidad pendiente rng yx.1 yx.2 hsrc s'' o
    · rw [if_neg hsrc, if_neg hsrc]
  rw [hfold]

/-- C2: the trial probability is `0.6 + 0.2 * slope + 0.02 * speed` exactly
when the offset equals the wind vector and `0.3 + 0.1 * slope + 0.01 * speed`
otherwise; with slope 1 and speed 100 both formulas clamp to exactly 1, so the
comparison `draw < min prob 1` succeeds for every draw below 1. -/
theorem claim_C2_probability_formula :
    (∀ (viento : ℤ × ℤ) (velocidad pend : ℚ) (dy dx : ℤ),
        dx = viento.1 ∧ dy = viento.2 →
        prob_ignicion viento velocidad pend dy dx = 0.6 + 0.2 * pend + 0.02 * velocidad) ∧
    (∀ (viento : ℤ × ℤ) (velocidad pend : ℚ) (dy dx : ℤ),
        ¬(dx = viento.1 ∧ dy = viento.2) →
        prob_ignicion viento velocidad pend dy dx = 0.3 + 0.1 * pend + 0.01 * velocidad) ∧
    (∀ (viento : ℤ × ℤ) (dy dx : ℤ), min (prob_ignicion viento 100 1 dy dx) 1 = 1) ∧
    (∀ (viento : ℤ × ℤ) (dy dx : ℤ) (r : ℚ), r < 1 →
        r < min (prob_ignicion viento 100 1 dy dx) 1) := by
  have hclamp : ∀ (viento : ℤ × ℤ) (dy dx : ℤ), min (prob_ignicion viento 100 1 dy dx) 1 = 1 := by
    intro viento dy dx
    unfold prob_ignicion
    split <;> norm_num [min_def]
  refine ⟨?_, ?_, hclamp, ?_⟩
  · intro viento velocidad pend dy dx h
    unfold prob_ignicion
    rw [if_pos h]
  · intro viento velocidad pend dy dx h
    unfold prob_ignicion
    rw [if_neg h]
  · intro viento dy dx r hr
    rw [hclamp viento dy dx]
    exact hr

/-- Witness for C2 at concrete inputs: wind `(1, 0)`, slope one half, speed
50 for the two formulas, and slope 1, speed 100 with draw one half for the
clamped success. -/
theorem claim_C2_probability_formula_witness :
    prob_ignicion (1, 0) 50 (1 / 2) 0 1 = 0.6 + 0.2 * (1 / 2) + 0.02 * 50 ∧
    prob_ignicion (1, 0) 50 (1 / 2) 1 1 = 0.3 + 0.1 * (1 / 2) + 0.01 * 50 ∧
    (1 / 2 : ℚ) < min (prob_ignicion (1, 0) 100 1 0 1) 1 :=
  ⟨claim_C2_probability_formula.1 (1, 0) 50 (1 / 2) 0 1 ⟨rfl, rfl⟩,
   claim_C2_probability_formula.2.1 (1, 0) 50 (1 / 2) 1 1 (by decide),
   claim_C2_probability_formula.2.2.2 (1, 0) 0 1 (1 / 2) (by norm_num)⟩

/-! ### Fuel locator lemmas -/

theorem mem_offsRange {r : ℕ} {z : ℤ} : z ∈ offsRange r ↔ -(r : ℤ) ≤ z ∧ z ≤ r := by
  unfold offsRange
  rw [List.mem_map]
  constructor
  · rintro ⟨i, hi, rfl⟩
    rw [List.mem_range] at hi
    omega
  · rintro ⟨h1, h2⟩
    exact ⟨(z + r).toNat, List.mem_range.mpr (by omega), by omega⟩

theorem mem_squareScan {r : ℕ} {dy dx : ℤ} :
    (dy, dx) ∈ squareScan r ↔ (-(r : ℤ) ≤ dy ∧ dy ≤ r) ∧ (-(r : ℤ) ≤ dx ∧ dx ≤ r) := by
  simp only [squareScan, List.product, List.mem_flatMap, List.mem_map, Prod.mk.injEq]
  constructor
  · rintro ⟨a, ha, b, hb, ha', hb'⟩
    subst ha'
    subst hb'
    exact ⟨mem_offsRange.mp ha, mem_offsRange.mp hb⟩
  · rintro ⟨h1, h2⟩
    exact ⟨dy, mem_offsRange.mpr h1, dx, mem_offsRange.mpr h2, rfl, rfl⟩

theorem mem_scanFromAux {o : ℤ × ℤ} {n : ℕ} : ∀ {r : ℕ},
    o ∈ scanFromAux r n ↔ ∃ k < n, o ∈ squareScan (r + k) := by
  induction n with
  | zero => intro r; simp [scanFromAux]
  | succ m ih =>
    intro r
    rw [scanFromAux, List.mem_append, ih]
    constructor
    · rintro (h | ⟨k, hk, hsq⟩)
      · exact ⟨0, Nat.succ_pos m, by simpa using h⟩
      · exact ⟨k + 1, by omega, by rw [show r + (k + 1) = r + 1 + k by omega]; exact hsq⟩
    · rintro ⟨k, hk, hsq⟩
      cases k with
      | zero => exact Or.inl (by simpa using hsq)
      | succ j => exact Or.inr ⟨j, by omega, by rw [show r + 1 + j = r + (j + 1) by omega]; exact hsq⟩

/-- Membership in the full scan sequence starting at radius 1: exactly the
offsets of Chebyshev norm at most the maximum, provided at least one radius
is scanned. -/
theorem mem_scan_one {rmax : ℕ} {dy dx : ℤ} :
    (dy, dx) ∈ scanFromAux 1 rmax ↔
      1 ≤ rmax ∧ (-(rmax : ℤ) ≤ dy ∧ dy ≤ rmax) ∧ (-(rmax : ℤ) ≤ dx ∧ dx ≤ rmax) := by
  rw [mem_scanFromAux]
  constructor
  · rintro ⟨k, hk, hsq⟩
    obtain ⟨⟨a1, a2⟩, b1, b2⟩ := mem_squareScan.mp hsq
    refine ⟨by omega, ⟨by omega, by omega⟩, by omega, by omega⟩
  · rintro ⟨h1, h2, h3⟩
    refine ⟨rmax - 1, by omega, mem_squareScan.mpr ?_⟩
    rw [show 1 + (rmax - 1) = rmax by omega]
    exact ⟨h2, h3⟩

/-- The locator agrees with the spec reference locator, radius by radius. -/
theorem buscar_eq_desde (g : Grid) (cx cy : ℤ) : ∀ (n r : ℕ),
    ((scanFromAux r n).find? (vecino_check g cx cy)).map (fun o => (cx + o.2, cy + o.1))
      = buscar_desde g cx cy r n := by
  intro n
  induction n with
  | zero => intro r; rfl
  | succ m ih =>
    intro r
    rw [scanFromAux, List.find?_append, buscar_desde]
    cases hfind : (squareScan r).find? (vecino_check g cx cy) with
    | none => exact ih (r + 1)
    | some o => rfl

/-- Sentinel characterization: with at least one radius scanned, the locator
returns the sentinel exactly when no in-bounds vegetated cell lies within
Chebyshev distance `rmax` of the target. -/
theorem buscar_vecino_none_iff (g : Grid) (cx cy : ℤ) (rmax : ℕ) (hr : 1 ≤ rmax) :
    buscar_vecino g cx cy rmax = none ↔ ¬ fuelWithin g cx cy rmax := by
  unfold buscar_vecino
  rw [Option.map_eq_none', List.find?_eq_none]
  constructor
  · intro hall hfw
    obtain ⟨y, x, hy, hx, hveg, hdy, hdx⟩ := hfw
    have hmem : ((y : ℤ) - cy, (x : ℤ) - cx) ∈ scanFromAux 1 rmax :=
      mem_scan_one.mpr ⟨hr, ⟨by omega, by omega⟩, by omega, by omega⟩
    apply hall _ hmem
    simp only [vecino_check, decide_eq_true_eq]
    refine ⟨by omega, by omega, by omega, by omega, ?_⟩
    rw [show cy + ((y : ℤ) - cy) = (y : ℤ) by ring, show cx + ((x : ℤ) - cx) = (x : ℤ) by ring,
      ggetZ_natCast]
    exact hveg
  · intro hnfw o homem hchk
    apply hnfw
    obtain ⟨dy, dx⟩ := o
    obtain ⟨-, hb1, hb2⟩ := mem_scan_one.mp homem
    have hc := of_decide_eq_true hchk
    obtain ⟨h1, h2, h3, h4, h5⟩ := hc
    rw [ggetZ, if_pos ⟨h3, h1⟩] at h5
    refine ⟨(cy + dy).toNat, (cx + dx).toNat, by omega, by omega, h5, by omega, by omega⟩

/-- C5 (amended): the fuel locator equals the spec reference definition for
all inputs; for every maximum radius at least 1 it returns the sentinel
exactly when no in-bounds fuel lies within Chebyshev distance the maximum;
and on the all-empty 7 by 7 grid with one fuel cell at offset `(2, 2)` from
the origin, radius 3 finds it while radius 1 reports the sentinel. -/
theorem claim_C5_fuel_locator :
    (∀ (g : Grid) (cx cy : ℤ) (rmax : ℕ),
      buscar_vecino g cx cy rmax = buscar_vecino_spec g cx cy rmax) ∧
    (∀ (g : Grid) (cx cy : ℤ) (rmax : ℕ), 1 ≤ rmax →
      (buscar_vecino g cx cy rmax = none ↔ ¬ fuelWithin g cx cy rmax)) ∧
    (buscar_vecino
        [[0, 0, 0, 0, 0, 0, 0], [0, 0, 0, 0, 0, 0, 0], [0, 0, 1, 0, 0, 0, 0],
         [0, 0, 0, 0, 0, 0, 0], [0, 0, 0, 0, 0, 0, 0], [0, 0, 0, 0, 0, 0, 0],
         [0, 0, 0, 0, 0, 0, 0]] 0 0 3 = some (2, 2) ∧
      buscar_vecino
        [[0, 0, 0, 0, 0, 0, 0], [0, 0, 0, 0, 0, 0, 0], [0, 0, 1, 0, 0, 0, 0],
         [0, 0, 0, 0, 0, 0, 0], [0, 0, 0, 0, 0, 0, 0], [0, 0, 0, 0, 0, 0, 0],
         [0, 0, 0, 0, 0, 0, 0]] 0 0 1 = none) :=
  ⟨fun g cx cy rmax => buscar_eq_desde g cx cy rmax 1,
   buscar_vecino_none_iff,
   by decide, by decide⟩

/-- Counterexample to C5 as stated: with maximum radius 0 the locator reports
the sentinel although an in-bounds fuel cell (the target itself) lies within
Chebyshev distance 0. -/
theorem claim_C5_fuel_locator_counterexample :
    buscar_vecino [[1]] 0 0 0 = none ∧ fuelWithin [[1]] 0 0 0 :=
  ⟨by decide, 0, 0, by decide, by decide, by decide, by decide, by decide⟩

/-- Witness for C5 at concrete inputs: sentinel characterization applied with
radius 2 on an all-empty 2 by 2 grid. -/
theorem claim_C5_fuel_locator_witness :
    1 ≤ 2 ∧ (buscar_vecino [[0, 0], [0, 0]] 0 0 2 = none ↔ ¬ fuelWithin [[0, 0], [0, 0]] 0 0 2) :=
  ⟨by decide, claim_C5_fuel_locator.2.1 [[0, 0], [0, 0]] 0 0 2 (by decide)⟩

/-- C10: the fuel locator does not exclude the target cell: the radius-1 scan
visits the offset `(0, 0)` fifth, so when the four positions scanned before it
hold no in-bounds fuel and the target itself is in-bounds fuel, the locator
returns exactly the queried coordinate. -/
theorem claim_C10_target_not_excluded (g : Grid) (cx cy : ℤ) (rmax : ℕ) (hr : 1 ≤ rmax)
    (hx0 : 0 ≤ cx) (hx1 : cx < (shape1 g : ℤ)) (hy0 : 0 ≤ cy) (hy1 : cy < (shape0 g : ℤ))
    (hveg : ggetZ g cy cx = VEGETACION)
    (hprev : ∀ o ∈ [((-1 : ℤ), (-1 : ℤ)), ((-1 : ℤ), (0 : ℤ)), ((-1 : ℤ), (1 : ℤ)),
      ((0 : ℤ), (-1 : ℤ))], vecino_check g cx cy o = false) :
    buscar_vecino g cx cy rmax = some (cx, cy) := by
  obtain ⟨m, rfl⟩ : ∃ m, rmax = m + 1 := ⟨rmax - 1, by omega⟩
  unfold buscar_vecino
  rw [scanFromAux, List.find?_append]
  have h00 : vecino_check g cx cy (0, 0) = true := by
    simp only [vecino_check, decide_eq_true_eq]
    refine ⟨by omega, by omega, by omega, by omega, ?_⟩
    simpa using hveg
  have hsq : (squareScan 1).find? (vecino_check g cx cy) = some (0, 0) := by
    have e : squareScan 1 = [(-1, -1), (-1, 0), (-1, 1), (0, -1), (0, 0), (0, 1),
        (1, -1), (1, 0), (1, 1)] := by decide
    rw [e]
    rw [List.find?_cons_of_neg _ (by rw [hprev _ (by decide)]; decide),
      List.find?_cons_of_neg _ (by rw [hprev _ (by decide)]; decide),
      List.find?_cons_of_neg _ (by rw [hprev _ (by decide)]; decide),
      List.find?_cons_of_neg _ (by rw [hprev _ (by decide)]; decide),
      List.find?_cons_of_pos _ h00]
  rw [hsq]
  show some (cx + 0, cy + 0) = some (cx, cy)
  rw [add_zero, add_zero]

/-- Witness for C10 at a concrete input: a 2 by 2 grid whose only fuel is the
queried corner; the locator returns that corner. -/
theorem claim_C10_target_not_excluded_witness :
    ggetZ [[0, 0], [0, 1]] 1 1 = VEGETACION ∧
    buscar_vecino [[0, 0], [0, 1]] 1 1 1 = some (1, 1) :=
  ⟨by decide,
   claim_C10_target_not_excluded [[0, 0], [0, 1]] 1 1 1 (by decide) (by decide) (by decide)
     (by decide) (by decide) (by decide) (by decide)⟩

/-! ### Wind discretizer lemmas -/

theorem pyround_zero : pyround 0 = 0 := by
  unfold pyround
  rw [Int.fract_zero, if_neg (by norm_num), round_zero]

theorem pyround_one : pyround 1 = 1 := by
  unfold pyround
  rw [Int.fract_one, if_neg (by norm_num), round_one]

theorem pyround_neg_one : pyround (-1) = -1 := by
  unfold pyround
  have h : ((-1 : ℤ) : ℝ) = (-1 : ℝ) := by norm_num
  rw [← h, Int.fract_intCast, if_neg (by norm_num), round_intCast]

/-- Rounding a real in `[-1, 1]` lands in `{-1, 0, 1}`. -/
theorem pyround_mem_of_le {x : ℝ} (h1 : -1 ≤ x) (h2 : x ≤ 1) :
    pyround x ∈ [(-1 : ℤ), 0, 1] := by
  unfold pyround
  split
  · next hf =>
    have hfl : (⌊x⌋ : ℝ) + Int.fract x = x := Int.floor_add_fract x
    have hub : ⌊x⌋ ≤ 0 := by
      by_contra hc
      push_neg at hc
      have hc' : (1 : ℝ) ≤ (⌊x⌋ : ℝ) := by exact_mod_cast hc
      rw [hf] at hfl
      linarith
    have hlb : -1 ≤ ⌊x⌋ := Int.le_floor.mpr (by exact_mod_cast h1)
    have hcases : ⌊x⌋ = -1 ∨ ⌊x⌋ = 0 := by omega
    rcases hcases with h | h <;> rw [h] <;> decide
  · rw [round_eq]
    have hlb : (-1 : ℤ) ≤ ⌊x + 1 / 2⌋ := Int.le_floor.mpr (by push_cast; linarith)
    have h32 : ⌊(3 / 2 : ℝ)⌋ = 1 := Int.floor_eq_iff.mpr (by norm_num)
    have hub : ⌊x + 1 / 2⌋ ≤ 1 := h32 ▸ Int.floor_mono (by linarith)
    have hcases : ⌊x + 1 / 2⌋ = -1 ∨ ⌊x + 1 / 2⌋ = 0 ∨ ⌊x + 1 / 2⌋ = 1 := by omega
    rcases hcases with h | h | h <;> rw [h] <;> decide

theorem radians_zero : radians 0 = 0 := by
  unfold radians
  ring

theorem radians_90 : radians 90 = Real.pi / 2 := by
  unfold radians
  ring

theorem radians_180 : radians 180 = Real.pi := by
  unfold radians
  ring

theorem radians_270 : radians 270 = Real.pi + Real.pi / 2 := by
  unfold radians
  ring

theorem cos_radians_270 : Real.cos (radians 270) = 0 := by
  rw [radians_270, Real.cos_add, Real.cos_pi, Real.sin_pi, Real.cos_pi_div_two,
    Real.sin_pi_div_two]
  ring

theorem sin_radians_270 : Real.sin (radians 270) = -1 := by
  rw [radians_270, Real.sin_add, Real.sin_pi, Real.cos_pi, Real.cos_pi_div_two,
    Real.sin_pi_div_two]
  ring

/-- C6: the wind discretizer (degrees to radians, then rounded cosine and
sine) maps 0 degrees to `(1, 0)`, 90 to `(0, 1)`, 180 to `(-1, 0)` and 270 to
`(0, -1)`; and for every finite degree reading both returned components lie
in `{-1, 0, 1}`. -/
theorem claim_C6_wind_discretizer :
    direccion_vector 0 = (1, 0) ∧ direccion_vector 90 = (0, 1) ∧
    direccion_vector 180 = (-1, 0) ∧ direccion_vector 270 = (0, -1) ∧
    ∀ grados : ℝ, (direccion_vector grados).1 ∈ [(-1 : ℤ), 0, 1] ∧
      (direccion_vector grados).2 ∈ [(-1 : ℤ), 0, 1] := by
  refine ⟨?_, ?_, ?_, ?_, ?_⟩
  · unfold direccion_vector
    rw [radians_zero, Real.cos_zero, Real.sin_zero, pyround_one, pyround_zero]
  · unfold direccion_vector
    rw [radians_90, Real.cos_pi_div_two, Real.sin_pi_div_two, pyround_zero, pyround_one]
  · unfold direccion_vector
    rw [radians_180, Real.cos_pi, Real.sin_pi, pyround_neg_one, pyround_zero]
  · unfold direccion_vector
    rw [cos_radians_270, sin_radians_270, pyround_zero, pyround_neg_one]
  · intro grados
    unfold direccion_vector
    exact ⟨pyround_mem_of_le (Real.neg_one_le_cos _) (Real.cos_le_one _),
      pyround_mem_of_le (Real.neg_one_le_sin _) (Real.sin_le_one _)⟩

end SimFuego
